import Mathlib

/-!
Verification development for the agent lifecycle orchestrator
(`src/agent/agent_pool.go`): the registration retry subsystem, the
orchestrated Register → Connect → Start → Disconnect sequence, and the
signal-triggered shutdown callback.

Embedding conventions:
* External collaborator behaviour (the remote Register endpoint, the
  worker handle `Connect`/`Start` results, the EC2 tag lookup, hostname,
  OS dump, pid, version) is supplied through an `Env` record; the
  orchestrator is a pure function from `Env` to the list of observable
  events it performs plus a terminal outcome.
* A fatal log call terminates the process (spec section 7: fatal
  conditions terminate the process after logging); this is the
  `RunOutcome.fatalTermination` outcome, and nothing after it executes.
* A nil-pointer dereference is the `crash` outcome.
-/

/-- Observable events of a run: log lines that the spec makes
load-bearing (warnings, the EC2 enrichment error, fatal messages), the
invocations of the external collaborators, and retry sleeps.
`infoConnected` stands for the three informational lines printed after a
successful `Connect`. -/
inductive Event where
  | showBanner
  | errorEC2 (msg : String)
  | infoRegistering
  | call (attempt : Nat)
  | sleep (d : Nat)
  | warnRejected
  | warnTransient (attempt : Nat)
  | infoRegistered (name : String)
  | infoConnecting
  | connect
  | infoConnected
  | watchArmed
  | workerStart
  | workerStop
  | infoDisconnecting (name : String)
  | disconnect
  | fatal (msg : String)
  | debugSignal (received : Bool)
  deriving DecidableEq

/-- True for the events that can appear inside a registration retry
trace: operation calls, retry sleeps and the two warning logs of the
register closure. -/
def Event.retryish : Event → Bool
  | .call _ => true
  | .sleep _ => true
  | .warnRejected => true
  | .warnTransient _ => true
  | _ => false

/-- True exactly on `Event.call` events (operation invocations). -/
def Event.isCall : Event → Bool
  | .call _ => true
  | _ => false

/-- True exactly on `Event.sleep` events (retry delays). -/
def Event.isSleep : Event → Bool
  | .sleep _ => true
  | _ => false

/-- The agent record (`api.Agent`): registration payload fields plus the
fields filled in by the remote service on registration. -/
structure Agent where
  Name : String
  Priority : String
  MetaData : List String
  ScriptEvalEnabled : Bool
  Version : String
  PID : Int
  Hostname : String
  OS : String
  AccessToken : String
  deriving DecidableEq

/-- The configuration record consumed by the pool
(`AgentConfiguration`): only the fields read by `agent_pool.go`. -/
structure AgentConfiguration where
  CommandEval : Bool
  ExitWithStatus : Bool
  BootstrapScript : String
  BuildPath : String
  HooksPath : String
  AutoSSHFingerprintVerification : Bool
  RunInPty : Bool
  deriving DecidableEq

/-- The `AgentPool` record: CLI options driving one orchestrator run.
The `APIClient` field of the Go struct is a run-local handle to the
remote service and is represented by the `reg` field of `Env` instead. -/
structure AgentPool where
  Token : String
  ConfigFilePath : String
  Name : String
  Priority : String
  MetaData : List String
  MetaDataEC2Tags : Bool
  Endpoint : String
  AgentConfiguration : AgentConfiguration
  deriving DecidableEq

/-- An `api.Response`: the part of the HTTP response the register
closure reads. -/
structure Response where
  StatusCode : Int
  deriving DecidableEq

/-- The triple returned by one call to `APIClient.Agents.Register`:
each component is a Go pointer or error value, hence an `Option`. -/
structure RegisterResult where
  registered : Option Agent
  resp : Option Response
  err : Option String
  deriving DecidableEq

/-- Result of running the wrapped operation once: either the operation
itself crashes (a nil dereference inside it), or it returns with a
possible error, the break flag it set on the retry state, and the log
lines it emitted. -/
inductive StepResult where
  | crash
  | ret (breakRequested : Bool) (err : Option String) (logs : List Event)
  deriving DecidableEq

/-- Outcome of a whole retry loop: the operation crashed partway
through, or the loop finished with a final error value; either way the
trace of calls, sleeps and operation logs is recorded. -/
inductive RetryOutcome where
  | crashed (trace : List Event)
  | done (trace : List Event) (err : Option String)
  deriving DecidableEq

/-- The trace of a retry outcome. -/
def RetryOutcome.trace : RetryOutcome → List Event
  | .crashed t => t
  | .done t _ => t

/-- Whether the retry loop ended in a crash of the operation. -/
def RetryOutcome.isCrashed : RetryOutcome → Bool
  | .crashed _ => true
  | .done _ _ => false

/-- The `retry.Config` record: `Maximum` attempts and the fixed
`Interval` between attempts (an opaque duration count). -/
structure RetryConfig where
  Maximum : Nat
  Interval : Nat
  deriving DecidableEq

/-- Modelled from the spec: the loop of the Retry Engine (`retry.Do`
from the repository retry package, which is not under src/). The
operation receives the retry state; the state is represented here by
the current attempt number (read for logging) together with the break
flag the operation returns. Per spec section 4.1: attempt 1 runs
immediately; success returns nil immediately; a failure with the abort
flag set returns that error immediately with no further delay; a
failure with attempts remaining sleeps for the interval and retries;
when the final permitted attempt fails the last error is returned. -/
def retryRun (op : Nat → StepResult) (d : Nat) : Nat → Nat → RetryOutcome
  | _, 0 => .done [] none
  | a, n + 1 =>
    match op a with
    | .crash => .crashed [Event.call a]
    | .ret brk err logs =>
      match err with
      | none => .done (Event.call a :: logs) none
      | some e =>
        if brk then .done (Event.call a :: logs) (some e)
        else if n = 0 then .done (Event.call a :: logs) (some e)
        else
          match retryRun op d (a + 1) n with
          | .crashed t => .crashed ((Event.call a :: logs) ++ Event.sleep d :: t)
          | .done t r => .done ((Event.call a :: logs) ++ Event.sleep d :: t) r

/-- Modelled from the spec: `retry.Do` — run the operation under the
bounded retry policy of the configuration, starting at attempt 1. -/
def retryDo (op : Nat → StepResult) (cfg : RetryConfig) : RetryOutcome :=
  retryRun op cfg.Interval 1 cfg.Maximum

/-- An operation that never crashes, never sets the break flag and logs
nothing: its result on attempt `n` is just `f n`. Used to state the
Retry Engine contract. -/
def pureOp (f : Nat → Option String) : Nat → StepResult :=
  fun n => .ret false (f n) []

/-- The register closure of `AgentPool.RegisterAgent`
(`agent_pool.go` lines 130-142), with the behaviour of the remote
service on the n-th call supplied by `reg`. On an error it reads
`resp.StatusCode` unconditionally: when `resp` is nil this is a nil
dereference (`crash`). A 401 status logs one warning and sets the break
flag; any other failing status logs the transient warning with the
attempt count. -/
def registerStep (reg : Nat → RegisterResult) (n : Nat) : StepResult :=
  let res := reg n
  match res.err with
  | none => .ret false none []
  | some e =>
    match res.resp with
    | none => .crash
    | some resp =>
      if resp.StatusCode = 401 then .ret true (some e) [Event.warnRejected]
      else .ret false (some e) [Event.warnTransient n]

/-- `AgentPool.RegisterAgent` (`agent_pool.go` lines 125-147): drive
the register closure through the retry engine with Maximum 30 and an
interval of one second. -/
def RegisterAgent (reg : Nat → RegisterResult) : RetryOutcome :=
  retryDo (registerStep reg) { Maximum := 30, Interval := 1 }

/-- `RegisterAgent` together with the captured `registered` variable:
the agent pointer returned by the last `Register` call made (the number
of calls made is the number of call events in the trace). -/
def RegisterAgentFull (reg : Nat → RegisterResult) : RetryOutcome × Option Agent :=
  let o := RegisterAgent reg
  (o, (reg (o.trace.countP Event.isCall)).registered)

/-- `AgentPool.CreateAgentTemplate` (`agent_pool.go` lines 90-120):
build the descriptor from the pool options, then (when enabled) attempt
EC2 tag enrichment — a lookup failure only logs an error — and finally
fill in hostname and OS dump. Returns the descriptor and the events
emitted. -/
def CreateAgentTemplate (r : AgentPool) (ec2 : Except String (List (String × String)))
    (hostname osdump version : String) (pid : Int) : Agent × List Event :=
  let agent : Agent :=
    { Name := r.Name
      Priority := r.Priority
      MetaData := r.MetaData
      ScriptEvalEnabled := r.AgentConfiguration.CommandEval
      Version := version
      PID := pid
      Hostname := ""
      OS := ""
      AccessToken := "" }
  let step :=
    if r.MetaDataEC2Tags then
      match ec2 with
      | .error e => (agent, [Event.errorEC2 e])
      | .ok tags =>
        (tags.foldl
          (fun ag q => { ag with MetaData := ag.MetaData ++ [q.1 ++ "=" ++ q.2] }) agent, [])
    else (agent, [])
  ({ step.1 with Hostname := hostname, OS := osdump }, step.2)

/-- Modelled from the spec: the signal kinds delivered by the signal
watcher (repository signalwatcher package, not under src/): the
designated graceful-termination kind QUIT, and every other observed
kind. -/
inductive Signal where
  | QUIT
  | other (name : String)
  deriving DecidableEq

/-- The shutdown callback passed to the signal watcher
(`agent_pool.go` lines 62-69): on QUIT, log at debug level and call
`Stop` on the worker; on any other signal, log at debug level and do
nothing. -/
def onSignal (sig : Signal) : List Event :=
  if sig = Signal.QUIT then [Event.debugSignal true, Event.workerStop]
  else [Event.debugSignal false]

/-- Terminal outcome of one orchestrator run. `fatalTermination` is a
fatal log call, which terminates the process (spec section 7);
`exitedWith` is the explicit exit-status propagation; `returned` is an
ordinary return from `AgentPool.Start`; `crash` is a nil dereference. -/
inductive RunOutcome where
  | fatalTermination
  | exitedWith (status : Int)
  | returned (err : Option String)
  | crash
  deriving DecidableEq

/-- The environment of one orchestrator run: the pool options plus the
behaviour of every external collaborator consulted during the run. -/
structure Env where
  pool : AgentPool
  ec2Tags : Except String (List (String × String))
  hostname : String
  osdump : String
  version : String
  pid : Int
  reg : Nat → RegisterResult
  connectErr : Option String
  startErr : Option String
  exitStatus : Int

/-- `AgentPool.Start` (`agent_pool.go` lines 25-86): banner, template
construction, registration (fatal on error), worker construction and
`Connect` (fatal on error), arming the signal watcher, the blocking
worker `Start` (fatal on error), `Disconnect`, then either exit-status
propagation or a nil return. A fatal log call terminates the run at
that point. -/
def AgentPool.Start (env : Env) : List Event × RunOutcome :=
  let r := env.pool
  let tc := CreateAgentTemplate r env.ec2Tags env.hostname env.osdump env.version env.pid
  let pre := Event.showBanner :: tc.2 ++ [Event.infoRegistering]
  match RegisterAgentFull env.reg with
  | (RetryOutcome.crashed t, _) => (pre ++ t, RunOutcome.crash)
  | (RetryOutcome.done t (some e), _) =>
    (pre ++ t ++ [Event.fatal e], RunOutcome.fatalTermination)
  | (RetryOutcome.done t none, none) => (pre ++ t, RunOutcome.crash)
  | (RetryOutcome.done t none, some registered) =>
    let evs1 := pre ++ t ++
      [Event.infoRegistered registered.Name, Event.infoConnecting, Event.connect]
    match env.connectErr with
    | some e => (evs1 ++ [Event.fatal e], RunOutcome.fatalTermination)
    | none =>
      let evs2 := evs1 ++ [Event.infoConnected, Event.watchArmed, Event.workerStart]
      match env.startErr with
      | some e => (evs2 ++ [Event.fatal e], RunOutcome.fatalTermination)
      | none =>
        let evs3 := evs2 ++ [Event.infoDisconnecting registered.Name, Event.disconnect]
        if r.AgentConfiguration.ExitWithStatus then (evs3, RunOutcome.exitedWith env.exitStatus)
        else (evs3, RunOutcome.returned none)

/-- The expected trace of a retry loop that runs `n` consecutive
attempts starting at attempt `a` with no operation logs: each attempt
but the last is followed by one sleep of `d`. -/
def attemptTrace (d : Nat) : Nat → Nat → List Event
  | _, 0 => []
  | a, n + 1 =>
    Event.call a :: (if n = 0 then [] else Event.sleep d :: attemptTrace d (a + 1) n)

theorem attemptTrace_countP_call (d : Nat) :
    ∀ n a, (attemptTrace d a n).countP Event.isCall = n := by
  intro n
  induction n with
  | zero => intro a; simp [attemptTrace]
  | succ n ih =>
    intro a
    by_cases hn : n = 0
    · subst hn; simp [attemptTrace, List.countP_cons, Event.isCall]
    · simp [attemptTrace, hn, List.countP_cons, Event.isCall, Event.isSleep, ih (a + 1)]

theorem attemptTrace_countP_sleep (d : Nat) :
    ∀ n a, (attemptTrace d a n).countP Event.isSleep = n - 1 := by
  intro n
  induction n with
  | zero => intro a; simp [attemptTrace]
  | succ n ih =>
    intro a
    by_cases hn : n = 0
    · subst hn; simp [attemptTrace, List.countP_cons, Event.isSleep]
    · rw [attemptTrace, if_neg hn]
      rw [List.countP_cons_of_neg _ _ (by simp [Event.isSleep]),
        List.countP_cons_of_pos _ _ (by simp [Event.isSleep]), ih (a + 1)]
      omega

theorem attemptTrace_count_sleep (d : Nat) :
    ∀ n a, (attemptTrace d a n).count (Event.sleep d) = n - 1 := by
  intro n
  induction n with
  | zero => intro a; simp [attemptTrace]
  | succ n ih =>
    intro a
    by_cases hn : n = 0
    · subst hn; simp [attemptTrace, List.count_cons]
    · rw [attemptTrace, if_neg hn]
      rw [List.count_cons_of_ne (by simp) _, List.count_cons_self, ih (a + 1)]
      omega

theorem retryRun_allFail (f : Nat → Option String) (err : Nat → String) (d : Nat)
    (hf : ∀ m, f m = some (err m)) :
    ∀ n a, 1 ≤ n →
      retryRun (pureOp f) d a n = .done (attemptTrace d a n) (some (err (a + n - 1))) := by
  intro n
  induction n with
  | zero => intro a h; omega
  | succ n ih =>
    intro a _
    by_cases hn : n = 0
    · subst hn
      simp [retryRun, pureOp, hf a, attemptTrace]
    · have ihr := ih (a + 1) (by omega)
      have hidx : a + 1 + n - 1 = a + (n + 1) - 1 := by omega
      rw [hidx] at ihr
      simp [retryRun, pureOp, hf a, hn, ihr, attemptTrace]

theorem retryRun_succeedsAt (f : Nat → Option String) (err : Nat → String) (d K : Nat)
    (h1 : ∀ m, m < K → f m = some (err m)) (h2 : f K = none) :
    ∀ n a, a ≤ K → K < a + n →
      retryRun (pureOp f) d a n = .done (attemptTrace d a (K + 1 - a)) none := by
  intro n
  induction n with
  | zero => intro a h h'; omega
  | succ n ih =>
    intro a ha ha'
    by_cases haK : a = K
    · subst haK
      have hK1 : a + 1 - a = 1 := by omega
      simp [retryRun, pureOp, h2, hK1, attemptTrace]
    · have haltK : a < K := by omega
      have hn : n ≠ 0 := by omega
      have ihr := ih (a + 1) (by omega) (by omega)
      have hsub : K + 1 - (a + 1) = K - a := by omega
      rw [hsub] at ihr
      have hKa : K + 1 - a = (K - a - 1 + 1) + 1 := by omega
      have hKa2 : K - a - 1 + 1 = K - a := by omega
      have htr : attemptTrace d a (K + 1 - a) =
          Event.call a :: Event.sleep d :: attemptTrace d (a + 1) (K - a) := by
        rw [hKa, attemptTrace, if_neg (by omega), hKa2]
      rw [htr]
      simp [retryRun, pureOp, h1 a haltK, hn, ihr]

theorem retryRun_noCrash (op : Nat → StepResult) (d : Nat)
    (h : ∀ m, op m ≠ .crash) :
    ∀ n a, (retryRun op d a n).isCrashed = false := by
  intro n
  induction n with
  | zero => intro a; simp [retryRun, RetryOutcome.isCrashed]
  | succ n ih =>
    intro a
    rw [retryRun]
    match hop : op a with
    | .crash => exact absurd hop (h a)
    | .ret brk e logs =>
      match e with
      | none => simp [RetryOutcome.isCrashed]
      | some e =>
        by_cases hbrk : brk
        · simp [hbrk, RetryOutcome.isCrashed]
        · by_cases hn : n = 0
          · simp [hbrk, hn, RetryOutcome.isCrashed]
          · have := ih (a + 1)
            simp only [hbrk, hn, if_false, Bool.false_eq_true, ite_false]
            match hr : retryRun op d (a + 1) n with
            | .crashed t => rw [hr] at this; simp [RetryOutcome.isCrashed] at this
            | .done t r => simp [RetryOutcome.isCrashed]

theorem retryRun_call_mem (op : Nat → StepResult) (d : Nat) :
    ∀ n a, 1 ≤ n → Event.call a ∈ (retryRun op d a n).trace := by
  intro n a h
  match n, h with
  | n + 1, _ =>
    rw [retryRun]
    match op a with
    | .crash => simp [RetryOutcome.trace]
    | .ret brk e logs =>
      match e with
      | none => simp [RetryOutcome.trace]
      | some e =>
        by_cases hbrk : brk
        · simp [hbrk, RetryOutcome.trace]
        · by_cases hn : n = 0
          · simp [hbrk, hn, RetryOutcome.trace]
          · simp only [hbrk, hn, if_false, Bool.false_eq_true, ite_false]
            match retryRun op d (a + 1) n with
            | .crashed t => simp [RetryOutcome.trace]
            | .done t r => simp [RetryOutcome.trace]

theorem retryRun_trace_of (op : Nat → StepResult) (d : Nat) (p : Event → Bool)
    (hcall : ∀ a, p (Event.call a) = true) (hsleep : p (Event.sleep d) = true)
    (hlogs : ∀ n b e l, op n = .ret b e l → ∀ x ∈ l, p x = true) :
    ∀ n a, ∀ x ∈ (retryRun op d a n).trace, p x = true := by
  intro n
  induction n with
  | zero => intro a x hx; simp [retryRun, RetryOutcome.trace] at hx
  | succ n ih =>
    intro a x hx
    rw [retryRun] at hx
    match hop : op a with
    | .crash =>
      rw [hop] at hx
      simp [RetryOutcome.trace] at hx
      subst hx; exact hcall a
    | .ret brk e logs =>
      rw [hop] at hx
      have hinlogs : ∀ x ∈ Event.call a :: logs, p x = true := by
        intro y hy
        rcases List.mem_cons.mp hy with rfl | hy
        · exact hcall a
        · exact hlogs a brk e logs hop y hy
      match e with
      | none =>
        simp only [RetryOutcome.trace] at hx
        exact hinlogs x hx
      | some e =>
        by_cases hbrk : brk
        · simp only [hbrk, if_true, RetryOutcome.trace] at hx
          exact hinlogs x hx
        · by_cases hn : n = 0
          · simp only [hbrk, hn, if_false, if_true, Bool.false_eq_true, ite_false,
              ite_true, RetryOutcome.trace] at hx
            exact hinlogs x hx
          · simp only [hbrk, hn, if_false, Bool.false_eq_true, ite_false] at hx
            have ihx := ih (a + 1)
            match hr : retryRun op d (a + 1) n with
            | .crashed t =>
              rw [hr] at hx ihx
              simp only [RetryOutcome.trace] at hx ihx ⊢
              rcases List.mem_append.mp hx with hy | hy
              · exact hinlogs x hy
              · rcases List.mem_cons.mp hy with rfl | hy
                · exact hsleep
                · exact ihx x hy
            | .done t r =>
              rw [hr] at hx ihx
              simp only [RetryOutcome.trace] at hx ihx ⊢
              rcases List.mem_append.mp hx with hy | hy
              · exact hinlogs x hy
              · rcases List.mem_cons.mp hy with rfl | hy
                · exact hsleep
                · exact ihx x hy

theorem registerStep_logs_retryish (reg : Nat → RegisterResult) (n : Nat) :
    ∀ b e l, registerStep reg n = .ret b e l → ∀ x ∈ l, x.retryish = true := by
  intro b e l h x hx
  rcases hr : reg n with ⟨ra, rresp, rerr⟩
  simp only [registerStep, hr] at h
  cases rerr with
  | none =>
    simp at h
    rcases h with ⟨-, -, rfl⟩
    simp at hx
  | some e0 =>
    cases rresp with
    | none => simp at h
    | some resp =>
      by_cases h401 : resp.StatusCode = 401
      · simp [h401] at h
        rcases h with ⟨-, -, rfl⟩
        simp at hx
        subst hx
        rfl
      · simp [h401] at h
        rcases h with ⟨-, -, rfl⟩
        simp at hx
        subst hx
        rfl

theorem RegisterAgent_trace_retryish (reg : Nat → RegisterResult) :
    ∀ x ∈ (RegisterAgent reg).trace, x.retryish = true := by
  intro x hx
  exact retryRun_trace_of (registerStep reg) 1 Event.retryish (fun _ => rfl) rfl
    (registerStep_logs_retryish reg) 30 1 x hx

theorem RegisterAgent_done_trace_retryish (reg : Nat → RegisterResult)
    (t : List Event) (r : Option String) (h : RegisterAgent reg = .done t r) :
    ∀ x ∈ t, x.retryish = true := by
  intro x hx
  have := RegisterAgent_trace_retryish reg x (by rw [h]; exact hx)
  exact this

theorem RegisterAgentFull_fst (reg : Nat → RegisterResult) :
    (RegisterAgentFull reg).1 = RegisterAgent reg := rfl

theorem CreateAgentTemplate_events (r : AgentPool)
    (ec2 : Except String (List (String × String))) (h o v : String) (p : Int) :
    (CreateAgentTemplate r ec2 h o v p).2 = [] ∨
      ∃ e, (CreateAgentTemplate r ec2 h o v p).2 = [Event.errorEC2 e] := by
  unfold CreateAgentTemplate
  by_cases hec2 : r.MetaDataEC2Tags
  · match ec2 with
    | .error e => right; exact ⟨e, by simp [hec2]⟩
    | .ok tags => left; simp [hec2]
  · left; simp [hec2]

theorem metaFold_eq (tags : List (String × String)) :
    ∀ a : Agent,
      tags.foldl (fun ag q => { ag with MetaData := ag.MetaData ++ [q.1 ++ "=" ++ q.2] }) a =
        { a with MetaData := a.MetaData ++ tags.map (fun q => q.1 ++ "=" ++ q.2) } := by
  induction tags with
  | nil => intro a; simp
  | cons q tags ih =>
    intro a
    rw [List.foldl_cons, ih]
    simp

/-- A concrete registered agent used in concrete runs. -/
def agentW : Agent :=
  { Name := "agent-1"
    Priority := "1"
    MetaData := ["queue=default"]
    ScriptEvalEnabled := true
    Version := "1.0"
    PID := 7
    Hostname := "host"
    OS := "linux"
    AccessToken := "tok" }

/-- A registration service that accepts every call. -/
def okSvc : Nat → RegisterResult :=
  fun _ => { registered := some agentW, resp := some { StatusCode := 200 }, err := none }

/-- A registration service that rejects every call with status 401. -/
def svc401 : Nat → RegisterResult :=
  fun _ => { registered := none, resp := some { StatusCode := 401 }, err := some "unauthorized" }

/-- A registration service whose transport fails: an error with a nil
response object. -/
def nilRespSvc : Nat → RegisterResult :=
  fun _ => { registered := none, resp := none, err := some "connection refused" }

/-- A registration service that fails every call with status 500 and a
non-nil response. -/
def svc500 : Nat → RegisterResult :=
  fun _ => { registered := none, resp := some { StatusCode := 500 }, err := some "server error" }

/-- A concrete agent configuration with exit-status propagation off. -/
def confW : AgentConfiguration :=
  { CommandEval := true
    ExitWithStatus := false
    BootstrapScript := "bootstrap"
    BuildPath := "builds"
    HooksPath := "hooks"
    AutoSSHFingerprintVerification := true
    RunInPty := true }

/-- A concrete pool with EC2 tag enrichment off. -/
def poolW : AgentPool :=
  { Token := "tkn"
    ConfigFilePath := ""
    Name := "agent-1"
    Priority := "1"
    MetaData := ["queue=default"]
    MetaDataEC2Tags := false
    Endpoint := "https://api"
    AgentConfiguration := confW }

/-- A run in which every collaborator succeeds. -/
def envOk : Env :=
  { pool := poolW
    ec2Tags := .ok []
    hostname := "host"
    osdump := "linux"
    version := "1.0"
    pid := 7
    reg := okSvc
    connectErr := none
    startErr := none
    exitStatus := 0 }

/-- A run in which the blocking worker Start call returns an error. -/
def envStartErr : Env :=
  { envOk with startErr := some "worker failed" }

/-- Claim C3: inside the shutdown callback, exactly the QUIT signal
triggers a single Stop call on the worker; every other signal kind is
logged at debug level and triggers nothing. -/
theorem onSignal_stop_iff_quit (sig : Signal) :
    (onSignal sig).count Event.workerStop = (if sig = Signal.QUIT then 1 else 0) ∧
    onSignal sig = (if sig = Signal.QUIT
      then [Event.debugSignal true, Event.workerStop]
      else [Event.debugSignal false]) := by
  by_cases h : sig = Signal.QUIT
  · subst h
    constructor
    · rfl
    · rfl
  · constructor
    · simp [onSignal, h, List.count_cons]
    · simp [onSignal, h]

/-- Claim C6: the Retry Engine contract. A never-aborting operation that
fails on every attempt is invoked exactly N times, with exactly N-1
sleeps of the configured interval between consecutive attempts, and the
engine returns the error of the last attempt; an operation succeeding on
attempt K ≤ N is invoked exactly K times and the engine returns nil. -/
theorem retry_engine_attempt_counts (N d : Nat) (f : Nat → Option String)
    (err : Nat → String) (hN : 1 ≤ N) :
    ((∀ m, f m = some (err m)) →
      retryDo (pureOp f) { Maximum := N, Interval := d } =
        RetryOutcome.done (attemptTrace d 1 N) (some (err N))) ∧
    (∀ K, 1 ≤ K → K ≤ N → (∀ m, m < K → f m = some (err m)) → f K = none →
      retryDo (pureOp f) { Maximum := N, Interval := d } =
        RetryOutcome.done (attemptTrace d 1 K) none) ∧
    (∀ n a, (attemptTrace d a n).countP Event.isCall = n ∧
      (attemptTrace d a n).countP Event.isSleep = n - 1 ∧
      (attemptTrace d a n).count (Event.sleep d) = n - 1) := by
  refine ⟨fun hf => ?_, fun K hK1 hKN h1 h2 => ?_, fun n a => ?_⟩
  · have := retryRun_allFail f err d hf N 1 hN
    simpa [retryDo] using this
  · have := retryRun_succeedsAt f err d K h1 h2 N 1 hK1 (by omega)
    have hsub : K + 1 - 1 = K := by omega
    rw [hsub] at this
    simpa [retryDo] using this
  · exact ⟨attemptTrace_countP_call d n a, attemptTrace_countP_sleep d n a,
      attemptTrace_count_sleep d n a⟩

/-- A service result map that always fails transiently: used as the
permanently-failing operation in the retry witness. -/
def alwaysFail : Nat → Option String := fun _ => some "transient"

/-- A service result map that succeeds on attempt 2 and fails before. -/
def okAtTwo : Nat → Option String := fun n => if n = 2 then none else some "transient"

theorem retry_engine_attempt_counts_w :
    retryDo (pureOp alwaysFail) { Maximum := 3, Interval := 5 } =
      RetryOutcome.done (attemptTrace 5 1 3) (some "transient") ∧
    retryDo (pureOp okAtTwo) { Maximum := 3, Interval := 5 } =
      RetryOutcome.done (attemptTrace 5 1 2) none :=
  ⟨(retry_engine_attempt_counts 3 5 alwaysFail (fun _ => "transient") (by decide)).1
      (fun _ => rfl),
   (retry_engine_attempt_counts 3 5 okAtTwo (fun _ => "transient") (by decide)).2.1 2
      (by decide) (by decide)
      (fun m hm => by simp only [okAtTwo]; rw [if_neg (by omega)]) rfl⟩

/-- The expected trace of a register retry loop that runs `n`
consecutive attempts starting at attempt `a`, the first `n - 1` of them
failing transiently (each logging its transient warning and followed by
one sleep of `d`) and the last rejected with 401 (logging exactly the
one rejection warning, with nothing after it). -/
def rejectAtTrace (d : Nat) : Nat → Nat → List Event
  | _, 0 => []
  | a, n + 1 =>
    if n = 0 then [Event.call a, Event.warnRejected]
    else Event.call a :: Event.warnTransient a :: Event.sleep d ::
      rejectAtTrace d (a + 1) n

theorem rejectAtTrace_countP_call (d : Nat) :
    ∀ n a, (rejectAtTrace d a n).countP Event.isCall = n := by
  intro n
  induction n with
  | zero => intro a; simp [rejectAtTrace]
  | succ n ih =>
    intro a
    by_cases hn : n = 0
    · subst hn; simp [rejectAtTrace, List.countP_cons, Event.isCall]
    · rw [rejectAtTrace, if_neg hn]
      rw [List.countP_cons_of_pos _ _ (by simp [Event.isCall]),
        List.countP_cons_of_neg _ _ (by simp [Event.isCall]),
        List.countP_cons_of_neg _ _ (by simp [Event.isCall]), ih (a + 1)]

theorem rejectAtTrace_count_warn (d : Nat) :
    ∀ n a, 1 ≤ n → (rejectAtTrace d a n).count Event.warnRejected = 1 := by
  intro n
  induction n with
  | zero => intro a ha; omega
  | succ n ih =>
    intro a _
    by_cases hn : n = 0
    · subst hn
      rw [rejectAtTrace, if_pos rfl]
      rw [List.count_cons_of_ne (by simp) _, List.count_cons_self, List.count_nil]
    · rw [rejectAtTrace, if_neg hn]
      rw [List.count_cons_of_ne (by simp) _, List.count_cons_of_ne (by simp) _,
        List.count_cons_of_ne (by simp) _, ih (a + 1) (by omega)]

theorem rejectAtTrace_countP_sleep (d : Nat) :
    ∀ n a, (rejectAtTrace d a n).countP Event.isSleep = n - 1 := by
  intro n
  induction n with
  | zero => intro a; simp [rejectAtTrace]
  | succ n ih =>
    intro a
    by_cases hn : n = 0
    · subst hn; simp [rejectAtTrace, List.countP_cons, Event.isSleep]
    · rw [rejectAtTrace, if_neg hn]
      rw [List.countP_cons_of_neg _ _ (by simp [Event.isSleep]),
        List.countP_cons_of_neg _ _ (by simp [Event.isSleep]),
        List.countP_cons_of_pos _ _ (by simp [Event.isSleep]), ih (a + 1)]
      omega

theorem retryRun_breakAt (op : Nat → StepResult) (err : Nat → String) (d K : Nat)
    (h1 : ∀ m, 1 ≤ m → m < K →
      op m = .ret false (some (err m)) [Event.warnTransient m])
    (h2 : op K = .ret true (some (err K)) [Event.warnRejected]) :
    ∀ n a, 1 ≤ a → a ≤ K → K < a + n →
      retryRun op d a n = .done (rejectAtTrace d a (K + 1 - a)) (some (err K)) := by
  intro n
  induction n with
  | zero => intro a ha1 ha hK; omega
  | succ n ih =>
    intro a ha1 ha hK
    by_cases haK : a = K
    · subst haK
      have hA : a + 1 - a = 1 := by omega
      rw [hA]
      simp [retryRun, h2, rejectAtTrace]
    · have haltK : a < K := by omega
      have hn : n ≠ 0 := by omega
      have ihr := ih (a + 1) (by omega) (by omega) (by omega)
      have hsub : K + 1 - (a + 1) = K - a := by omega
      rw [hsub] at ihr
      have hKa : K + 1 - a = (K - a - 1 + 1) + 1 := by omega
      have hKa2 : K - a - 1 + 1 = K - a := by omega
      have htr : rejectAtTrace d a (K + 1 - a) =
          Event.call a :: Event.warnTransient a :: Event.sleep d ::
            rejectAtTrace d (a + 1) (K - a) := by
        rw [hKa, rejectAtTrace, if_neg (by omega), hKa2]
      rw [htr]
      simp [retryRun, h1 a ha1 haltK, hn, ihr]

/-- Claim C2: for every service behaviour that fails transiently (an
error with a non-401 status) on attempts 1..K-1 and fails with status
401 on attempt K (K ≤ 30), the register closure sets the break flag on
that 401 attempt: the loop makes exactly K calls, logs exactly one
rejection warning (for attempt K), sleeps only between the K attempts
(K-1 sleeps, none after the rejection), and reports the error of
attempt K as the permanent failure. Instantiated at K = 1 this gives
the always-rejecting service: exactly one call. -/
theorem register_401_aborts (reg : Nat → RegisterResult) (err : Nat → String)
    (ra : Nat → Option Agent) (code : Nat → Int) (K : Nat)
    (hK1 : 1 ≤ K) (hK30 : K ≤ 30)
    (htrans : ∀ n, 1 ≤ n → n < K → reg n = ⟨ra n, some ⟨code n⟩, some (err n)⟩)
    (hcode : ∀ n, 1 ≤ n → n < K → code n ≠ 401)
    (h401 : reg K = ⟨ra K, some ⟨401⟩, some (err K)⟩) :
    RegisterAgent reg = RetryOutcome.done (rejectAtTrace 1 1 K) (some (err K)) ∧
    (rejectAtTrace 1 1 K).countP Event.isCall = K ∧
    (rejectAtTrace 1 1 K).count Event.warnRejected = 1 ∧
    (rejectAtTrace 1 1 K).countP Event.isSleep = K - 1 := by
  have hs1 : ∀ m, 1 ≤ m → m < K →
      registerStep reg m = .ret false (some (err m)) [Event.warnTransient m] := by
    intro m hm1 hmK
    simp [registerStep, htrans m hm1 hmK, hcode m hm1 hmK]
  have hs2 : registerStep reg K = .ret true (some (err K)) [Event.warnRejected] := by
    simp [registerStep, h401]
  have hmain := retryRun_breakAt (registerStep reg) err 1 K hs1 hs2 30 1 le_rfl hK1
    (by omega)
  have hKK : K + 1 - 1 = K := by omega
  rw [hKK] at hmain
  exact ⟨hmain, rejectAtTrace_countP_call 1 K 1,
    rejectAtTrace_count_warn 1 K 1 hK1, rejectAtTrace_countP_sleep 1 K 1⟩

/-- A registration service that fails with status 500 on calls before
the third and fails with status 401 from the third call on. -/
def svc401At3 : Nat → RegisterResult :=
  fun n =>
    if n < 3 then
      { registered := none, resp := some { StatusCode := 500 }, err := some "server error" }
    else
      { registered := none, resp := some { StatusCode := 401 }, err := some "unauthorized" }

/-- The per-call error strings of `svc401At3`. -/
def errAt3 : Nat → String :=
  fun n => if n < 3 then "server error" else "unauthorized"

theorem register_401_aborts_w :
    (RegisterAgent svc401At3 =
        RetryOutcome.done (rejectAtTrace 1 1 3) (some "unauthorized") ∧
      (rejectAtTrace 1 1 3).countP Event.isCall = 3 ∧
      (rejectAtTrace 1 1 3).count Event.warnRejected = 1) ∧
    (RegisterAgent svc401 =
        RetryOutcome.done (rejectAtTrace 1 1 1) (some "unauthorized") ∧
      (rejectAtTrace 1 1 1).countP Event.isCall = 1) := by
  have h3 := register_401_aborts svc401At3 errAt3 (fun _ => none) (fun _ => 500) 3
    (by decide) (by decide)
    (fun n hn1 hn2 => by simp [svc401At3, errAt3, hn2])
    (fun n hn1 hn2 => by show (500 : Int) ≠ 401; decide)
    (by simp [svc401At3, errAt3])
  have h1 := register_401_aborts svc401 (fun _ => "unauthorized") (fun _ => none)
    (fun _ => 500) 1 (by decide) (by decide)
    (fun n hn1 hn2 => absurd hn2 (by omega))
    (fun n hn1 hn2 => absurd hn2 (by omega))
    rfl
  exact ⟨⟨h3.1, h3.2.1, h3.2.2.1⟩, h1.1, h1.2.1⟩

/-- Claim C8: the error branch of the register closure reads
`resp.StatusCode` unconditionally, so it is free of a nil dereference
exactly under the precondition that every erroring Register call comes
with a non-nil response; a transport-level failure that returns an
error with a nil response crashes the closure on its first call. -/
theorem register_resp_nil_deref :
    (∀ reg : Nat → RegisterResult,
      (∀ n, (reg n).err.isSome = true → (reg n).resp.isSome = true) →
      (RegisterAgent reg).isCrashed = false) ∧
    RegisterAgent nilRespSvc = RetryOutcome.crashed [Event.call 1] := by
  constructor
  · intro reg h
    have hop : ∀ m, registerStep reg m ≠ .crash := by
      intro m hc
      rcases hr : reg m with ⟨ra, rresp, rerr⟩
      have hm := h m
      rw [hr] at hm
      simp only [registerStep, hr] at hc
      cases rerr with
      | none => simp at hc
      | some e0 =>
        cases rresp with
        | none => simp at hm
        | some resp =>
          by_cases h401 : resp.StatusCode = 401
          · simp [h401] at hc
          · simp [h401] at hc
    exact retryRun_noCrash (registerStep reg) 1 hop 30 1
  · show retryRun (registerStep nilRespSvc) 1 1 (29 + 1) = _
    rw [retryRun]
    simp [registerStep, nilRespSvc]

theorem register_resp_nil_deref_w :
    (RegisterAgent svc500).isCrashed = false ∧
    RegisterAgent nilRespSvc = RetryOutcome.crashed [Event.call 1] :=
  ⟨register_resp_nil_deref.1 svc500 (fun _ _ => rfl), register_resp_nil_deref.2⟩

/-- Claim C9: whenever `AgentPool.Start` returns at all it returns a nil
error: every run ends in a fatal process termination, an explicit
process exit with the worker exit status, a nil dereference, or a nil
return — never a returned non-nil error. -/
theorem start_never_returns_error (env : Env) :
    (AgentPool.Start env).2 = RunOutcome.fatalTermination ∨
    (AgentPool.Start env).2 = RunOutcome.crash ∨
    (AgentPool.Start env).2 = RunOutcome.exitedWith env.exitStatus ∨
    (AgentPool.Start env).2 = RunOutcome.returned none := by
  unfold AgentPool.Start
  rcases hrf : RegisterAgentFull env.reg with ⟨o, ra⟩
  cases o with
  | crashed t => simp
  | done t r =>
    cases r with
    | some e => simp
    | none =>
      cases ra with
      | none => simp
      | some a =>
        cases hc : env.connectErr with
        | some e => simp
        | none =>
          cases hs : env.startErr with
          | some e => simp
          | none =>
            by_cases hx : env.pool.AgentConfiguration.ExitWithStatus
            · simp [hx]
            · simp [hx]

theorem RegisterAgentFull_done (reg : Nat → RegisterResult) (t : List Event)
    (r : Option String) (ra : Option Agent)
    (h : RegisterAgentFull reg = (.done t r, ra)) : RegisterAgent reg = .done t r := by
  have := congrArg Prod.fst h
  simpa [RegisterAgentFull] using this

theorem register_done_count_zero (reg : Nat → RegisterResult) (t : List Event)
    (r : Option String) (h : RegisterAgent reg = .done t r) (x : Event)
    (hx : x.retryish = false) : t.count x = 0 := by
  rw [List.count_eq_zero]
  intro hmem
  have := RegisterAgent_done_trace_retryish reg t r h x hmem
  rw [hx] at this
  cases this

/-- Counterexample to claim C1 as stated: a run in which the blocking
worker Start call returns an error does reach the worker (the start
event is in the trace) but terminates fatally without ever invoking
Disconnect. -/
theorem disconnect_skipped_on_start_error :
    Event.workerStart ∈ (AgentPool.Start envStartErr).1 ∧
    Event.disconnect ∉ (AgentPool.Start envStartErr).1 ∧
    (AgentPool.Start envStartErr).2 = RunOutcome.fatalTermination := by
  decide

/-- Claim C1 (amended): after a successful registration and connect,
Disconnect is invoked exactly once when the worker Start call returns
nil (normal or Stop-triggered completion), but when Start returns a
non-nil error the fatal log terminates the process and Disconnect is
never invoked. -/
theorem disconnect_iff_clean_start (env : Env) (t : List Event) (a : Agent)
    (hreg : RegisterAgentFull env.reg = (RetryOutcome.done t none, some a))
    (hconn : env.connectErr = none) :
    (AgentPool.Start env).1.count Event.disconnect =
      (if env.startErr = none then 1 else 0) ∧
    ((AgentPool.Start env).2 = RunOutcome.fatalTermination ↔ env.startErr ≠ none) := by
  have hra := RegisterAgentFull_done env.reg t none (some a) hreg
  have hnd : t.count Event.disconnect = 0 :=
    register_done_count_zero env.reg t none hra Event.disconnect rfl
  unfold AgentPool.Start
  rw [hreg, hconn]
  rcases CreateAgentTemplate_events env.pool env.ec2Tags env.hostname env.osdump
      env.version env.pid with htc | ⟨e0, htc⟩ <;>
    cases hs : env.startErr with
    | none =>
      by_cases hx : env.pool.AgentConfiguration.ExitWithStatus <;>
        simp [htc, hx, List.count_append, List.count_cons, hnd]
    | some e =>
      simp [htc, List.count_append, List.count_cons, hnd]

theorem register_done_not_mem (reg : Nat → RegisterResult) (t : List Event)
    (r : Option String) (h : RegisterAgent reg = .done t r) (x : Event)
    (hx : x.retryish = false) : x ∉ t :=
  List.count_eq_zero.mp (register_done_count_zero reg t r h x hx)

theorem RegisterAgent_call_one_mem (reg : Nat → RegisterResult) :
    Event.call 1 ∈ (RegisterAgent reg).trace :=
  retryRun_call_mem (registerStep reg) 1 30 1 (by omega)

theorem disconnect_iff_clean_start_w :
    (AgentPool.Start envOk).1.count Event.disconnect =
      (if envOk.startErr = none then 1 else 0) ∧
    ((AgentPool.Start envOk).2 = RunOutcome.fatalTermination ↔ envOk.startErr ≠ none) :=
  disconnect_iff_clean_start envOk [Event.call 1] agentW (by decide) rfl

/-- A run in which the worker Connect call fails. -/
def envConnErr : Env :=
  { envOk with connectErr := some "conn refused" }

/-- Claim C4: when Connect fails, the run terminates fatally and the
worker Start, Stop and Disconnect are never invoked; the signal watcher
is never armed. -/
theorem connect_failure_skips_worker (env : Env) (t : List Event) (a : Agent) (e : String)
    (hreg : RegisterAgentFull env.reg = (RetryOutcome.done t none, some a))
    (hconn : env.connectErr = some e) :
    (AgentPool.Start env).2 = RunOutcome.fatalTermination ∧
    Event.workerStart ∉ (AgentPool.Start env).1 ∧
    Event.workerStop ∉ (AgentPool.Start env).1 ∧
    Event.disconnect ∉ (AgentPool.Start env).1 ∧
    Event.watchArmed ∉ (AgentPool.Start env).1 := by
  have hra := RegisterAgentFull_done env.reg t none (some a) hreg
  have h1 := register_done_not_mem env.reg t none hra Event.workerStart rfl
  have h2 := register_done_not_mem env.reg t none hra Event.workerStop rfl
  have h3 := register_done_not_mem env.reg t none hra Event.disconnect rfl
  have h4 := register_done_not_mem env.reg t none hra Event.watchArmed rfl
  unfold AgentPool.Start
  rw [hreg, hconn]
  rcases CreateAgentTemplate_events env.pool env.ec2Tags env.hostname env.osdump
      env.version env.pid with htc | ⟨e0, htc⟩ <;>
    simp [htc, h1, h2, h3, h4]

theorem connect_failure_skips_worker_w :
    (AgentPool.Start envConnErr).2 = RunOutcome.fatalTermination ∧
    Event.workerStart ∉ (AgentPool.Start envConnErr).1 ∧
    Event.workerStop ∉ (AgentPool.Start envConnErr).1 ∧
    Event.disconnect ∉ (AgentPool.Start envConnErr).1 ∧
    Event.watchArmed ∉ (AgentPool.Start envConnErr).1 :=
  connect_failure_skips_worker envConnErr [Event.call 1] agentW "conn refused"
    (by decide) rfl

/-- Claim C5: after the worker Start call returns nil and Disconnect has
run, the run exits the process with the recorded worker exit status when
exit-status propagation is configured, and otherwise returns nil. -/
theorem terminal_exit_propagation (env : Env) (t : List Event) (a : Agent)
    (hreg : RegisterAgentFull env.reg = (RetryOutcome.done t none, some a))
    (hconn : env.connectErr = none) (hstart : env.startErr = none) :
    Event.disconnect ∈ (AgentPool.Start env).1 ∧
    (AgentPool.Start env).2 = (if env.pool.AgentConfiguration.ExitWithStatus
      then RunOutcome.exitedWith env.exitStatus else RunOutcome.returned none) := by
  unfold AgentPool.Start
  rw [hreg, hconn, hstart]
  by_cases hx : env.pool.AgentConfiguration.ExitWithStatus <;> simp [hx]

/-- A run configured to propagate the worker exit status. -/
def envExit : Env :=
  { envOk with
    pool := { poolW with
      AgentConfiguration := { confW with ExitWithStatus := true } }
    exitStatus := 3 }

theorem terminal_exit_propagation_w :
    Event.disconnect ∈ (AgentPool.Start envExit).1 ∧
    (AgentPool.Start envExit).2 = (if envExit.pool.AgentConfiguration.ExitWithStatus
      then RunOutcome.exitedWith envExit.exitStatus else RunOutcome.returned none) :=
  terminal_exit_propagation envExit [Event.call 1] agentW (by decide) rfl rfl

/-- Claim C7: when EC2 tag enrichment is enabled and the tag lookup
fails, the failure is logged, the descriptor is returned with the
configured metadata unchanged, and the run still proceeds to the
registration call (the first Register attempt happens). -/
theorem enrichment_failure_nonfatal (env : Env) (e : String)
    (htags : env.pool.MetaDataEC2Tags = true) (hec2 : env.ec2Tags = Except.error e) :
    (CreateAgentTemplate env.pool env.ec2Tags env.hostname env.osdump env.version
      env.pid).1.MetaData = env.pool.MetaData ∧
    (CreateAgentTemplate env.pool env.ec2Tags env.hostname env.osdump env.version
      env.pid).2 = [Event.errorEC2 e] ∧
    Event.errorEC2 e ∈ (AgentPool.Start env).1 ∧
    Event.call 1 ∈ (AgentPool.Start env).1 := by
  have htc : (CreateAgentTemplate env.pool env.ec2Tags env.hostname env.osdump
      env.version env.pid).2 = [Event.errorEC2 e] := by
    simp [CreateAgentTemplate, htags, hec2]
  have hcore : Event.errorEC2 e ∈ (AgentPool.Start env).1 ∧
      Event.call 1 ∈ (AgentPool.Start env).1 := by
    unfold AgentPool.Start
    rcases hrf : RegisterAgentFull env.reg with ⟨o, ra⟩
    have ho : RegisterAgent env.reg = o := by
      have h1 := congrArg Prod.fst hrf
      rw [RegisterAgentFull_fst] at h1
      exact h1
    have hmem : Event.call 1 ∈ o.trace := ho ▸ RegisterAgent_call_one_mem env.reg
    cases o with
    | crashed t =>
      simp only [RetryOutcome.trace] at hmem
      simp [htc, hmem]
    | done t r =>
      simp only [RetryOutcome.trace] at hmem
      cases r with
      | some e2 => simp [htc, hmem]
      | none =>
        cases ra with
        | none => simp [htc, hmem]
        | some a =>
          cases hc : env.connectErr with
          | some e2 => simp [htc, hmem]
          | none =>
            cases hs : env.startErr with
            | some e2 => simp [htc, hmem]
            | none =>
              by_cases hx : env.pool.AgentConfiguration.ExitWithStatus <;>
                simp [htc, hmem, hx]
  refine ⟨?_, htc, hcore.1, hcore.2⟩
  simp [CreateAgentTemplate, htags, hec2]

/-- A run with EC2 enrichment enabled and a failing tag lookup. -/
def envEC2 : Env :=
  { envOk with
    pool := { poolW with MetaDataEC2Tags := true }
    ec2Tags := .error "ec2 down" }

theorem enrichment_failure_nonfatal_w :
    (CreateAgentTemplate envEC2.pool envEC2.ec2Tags envEC2.hostname envEC2.osdump
      envEC2.version envEC2.pid).1.MetaData = envEC2.pool.MetaData ∧
    (CreateAgentTemplate envEC2.pool envEC2.ec2Tags envEC2.hostname envEC2.osdump
      envEC2.version envEC2.pid).2 = [Event.errorEC2 "ec2 down"] ∧
    Event.errorEC2 "ec2 down" ∈ (AgentPool.Start envEC2).1 ∧
    Event.call 1 ∈ (AgentPool.Start envEC2).1 :=
  enrichment_failure_nonfatal envEC2 "ec2 down" rfl rfl

/-- Claim C10: EC2 enrichment only appends tag=value strings to the
descriptor metadata — the configured metadata is preserved unchanged as
a prefix, in order — and never modifies the name, priority, script-eval
flag, version or pid fields. -/
theorem enrichment_appends_only (r : AgentPool) (tags : List (String × String))
    (h o v : String) (p : Int) (henabled : r.MetaDataEC2Tags = true) :
    (CreateAgentTemplate r (.ok tags) h o v p).1.Name = r.Name ∧
    (CreateAgentTemplate r (.ok tags) h o v p).1.Priority = r.Priority ∧
    (CreateAgentTemplate r (.ok tags) h o v p).1.ScriptEvalEnabled =
      r.AgentConfiguration.CommandEval ∧
    (CreateAgentTemplate r (.ok tags) h o v p).1.Version = v ∧
    (CreateAgentTemplate r (.ok tags) h o v p).1.PID = p ∧
    (CreateAgentTemplate r (.ok tags) h o v p).1.MetaData =
      r.MetaData ++ tags.map (fun q => q.1 ++ "=" ++ q.2) := by
  simp [CreateAgentTemplate, henabled, metaFold_eq]

/-- A pool with EC2 tag enrichment enabled. -/
def poolE : AgentPool :=
  { poolW with MetaDataEC2Tags := true }

theorem enrichment_appends_only_w :
    (CreateAgentTemplate poolE (.ok [("region", "us-east-1")]) "h" "l" "1.0" 3).1.Name =
      poolE.Name ∧
    (CreateAgentTemplate poolE (.ok [("region", "us-east-1")]) "h" "l" "1.0" 3).1.Priority =
      poolE.Priority ∧
    (CreateAgentTemplate poolE
        (.ok [("region", "us-east-1")]) "h" "l" "1.0" 3).1.ScriptEvalEnabled =
      poolE.AgentConfiguration.CommandEval ∧
    (CreateAgentTemplate poolE (.ok [("region", "us-east-1")]) "h" "l" "1.0" 3).1.Version =
      "1.0" ∧
    (CreateAgentTemplate poolE (.ok [("region", "us-east-1")]) "h" "l" "1.0" 3).1.PID = 3 ∧
    (CreateAgentTemplate poolE (.ok [("region", "us-east-1")]) "h" "l" "1.0" 3).1.MetaData =
      poolE.MetaData ++ [("region", "us-east-1")].map (fun q => q.1 ++ "=" ++ q.2) :=
  enrichment_appends_only poolE [("region", "us-east-1")] "h" "l" "1.0" 3 rfl
